import Mathlib

/-!
# Verification of the statistical insight engine

Shallow embedding of the repository's statistical core
(`app/ml/correlations.py`, `app/ml/anomalies.py`, `app/ml/causal.py`)
and proofs about it.

Conventions of the embedding:
* numbers are `ℚ` (the Python code works over floats; all the operations the
  claims touch are exact field operations, so `ℚ` represents them faithfully);
* a missing value (`NaN` / `NaT`) is `Option.none`;
* a pandas `DataFrame` is a `Frame`: an association list from column names to
  columns; cell values are `Val` (numeric, unparsed date string, parsed
  datetime, or missing);
* the scipy/sklearn model-fitting routines (`pearsonr`, `spearmanr`,
  `LogisticRegression`, `LinearRegression`) are iterative numeric library
  code outside this repository; they are passed in as function parameters,
  except for their documented input contracts (e.g. `LogisticRegression.fit`
  rejecting single-class targets), which are embedded explicitly;
* Python functions that mutate their caller's data return the post-call state
  of that data explicitly; exceptions are `Except.error`.
-/

/-! ## Numeric helpers shared by the embeddings (numpy / pandas semantics) -/

/-- The observed (non-missing) values of a numeric series. -/
def obsVals (l : List (Option ℚ)) : List ℚ := l.filterMap id

/-- `np.mean` over a plain numeric vector (no NaN handling). -/
def npMean (l : List ℚ) : ℚ := l.sum / l.length

/-- `pandas.Series.mean`: skips missing values; an all-missing series gives NaN. -/
def pdMean (l : List (Option ℚ)) : Option ℚ :=
  let o := obsVals l
  if o.length = 0 then none else some (npMean o)

/-- `np.median` of a nonempty vector: sort ascending, take the middle element,
or the mean of the two middle elements when the length is even. -/
def npMedian (l : List ℚ) : ℚ :=
  let s := l.insertionSort (· ≤ ·)
  if l.length % 2 = 1 then s.getD (l.length / 2) 0
  else (s.getD (l.length / 2 - 1) 0 + s.getD (l.length / 2) 0) / 2

/-! ## Data-frame model -/

/-- A cell of a DataFrame: a number, an unparsed date (e.g. a CSV string), a
datetime produced by `pd.to_datetime`, or a missing value (NaN / NaT). -/
inductive Val where
  | num (q : ℚ)
  | raw (s : String)
  | dt (s : String)
  | missing
deriving DecidableEq

/-- `pd.to_datetime` on one cell: parses an unparsed date into a datetime value
and leaves datetimes and missing values (NaT) alone.  A numeric cell is
converted to a datetime as well (epoch interpretation); its rendered form
stands in for the resulting timestamp. -/
def pdToDatetime : Val → Val
  | .raw s => .dt s
  | .num q => .dt (toString q)
  | v => v

/-- Lexicographic code-point comparison of character lists (how Python
compares strings with `<`). -/
def strLtAux : List Char → List Char → Bool
  | [], [] => false
  | [], _ :: _ => true
  | _ :: _, [] => false
  | c :: cs, d :: ds =>
    if c.toNat < d.toNat then true
    else if d.toNat < c.toNat then false
    else strLtAux cs ds

/-- Python's `<` on strings: lexicographic by code point. -/
def strLtB (a b : String) : Bool := strLtAux a.data b.data

/-- Tag used to compare cells of different kinds (a frame being sorted or
grouped has cells of one kind in practice). -/
def Val.rank : Val → ℕ
  | .num _ => 0
  | .raw _ => 1
  | .dt _ => 2
  | .missing => 3

/-- Total comparison on cells: numeric order on numbers, lexicographic order on
date strings (ISO dates compare chronologically), kind tag otherwise. -/
def Val.le (a b : Val) : Bool :=
  match a, b with
  | .num p, .num q => decide (p ≤ q)
  | .raw s, .raw t => !(strLtB t s)
  | .dt s, .dt t => !(strLtB t s)
  | _, _ => decide (a.rank ≤ b.rank)

/-- A pandas DataFrame: association list from column names to equal-length
columns of cells. -/
structure Frame where
  cols : List (String × List Val)
deriving DecidableEq

/-- Column lookup (`df[name]` read access), `none` when absent (KeyError). -/
def Frame.get (f : Frame) (name : String) : Option (List Val) :=
  (f.cols.find? (fun c => c.1 == name)).map Prod.snd

/-- `name in df.columns`. -/
def Frame.hasCol (f : Frame) (name : String) : Bool := (f.get name).isSome

/-- `df[name] = col`: replace the column in place when present, append it
otherwise. -/
def Frame.set (f : Frame) (name : String) (c : List Val) : Frame :=
  if f.hasCol name then ⟨f.cols.map (fun p => if p.1 == name then (p.1, c) else p)⟩
  else ⟨f.cols ++ [(name, c)]⟩

/-- A column read as a numeric series: non-numeric cells count as missing. -/
def colNum (c : List Val) : List (Option ℚ) :=
  c.map (fun v => match v with | .num q => some q | _ => none)

/-! ## `app/ml/correlations.py` -/

/-- The paired observations of two series: positions where both values are
present (the spec's "non-missing paired observations"). -/
def pairedObs (x y : List (Option ℚ)) : List (ℚ × ℚ) :=
  (x.zip y).filterMap (fun p => match p with
    | (some a, some b) => some (a, b)
    | _ => none)

/-- `corr_with_p(x, y, method)`.  `pearson` and `spearman` stand for
`scipy.stats.pearsonr` / `spearmanr` applied to the masked vectors: they map
the two masked series to the pair `(r, p)`.
Source: builds `mask = ~(x.isna() | y.isna())`, returns `(None, None, 0)` when
`mask.sum() < 14`, otherwise applies the selected correlation to `x[mask]`,
`y[mask]` and returns `(float(r), float(p), int(mask.sum()))`. -/
def corr_with_p (pearson spearman : List ℚ → List ℚ → ℚ × ℚ)
    (x y : List (Option ℚ)) (method : String := "spearman") :
    Option ℚ × Option ℚ × ℕ :=
  let mask : List Bool := (x.zip y).map (fun p => p.1.isSome && p.2.isSome)
  let maskSum := mask.count true
  if maskSum < 14 then (none, none, 0)
  else
    let kept := (x.zip y).filter (fun p => p.1.isSome && p.2.isSome)
    let xm := kept.filterMap (fun p => p.1)
    let ym := kept.filterMap (fun p => p.2)
    let rp := if method = "pearson" then pearson xm ym else spearman xm ym
    (some rp.1, some rp.2, maskSum)

/-- The columns aggregated by sum in `discover_hidden_correlations`. -/
def sumAggCols : List String :=
  ["carbs_g", "protein_g", "fat_g", "fiber_g", "late_meal", "post_meal_walk10"]

/-- The columns aggregated by mean in `discover_hidden_correlations`. -/
def meanAggCols : List String := ["meal_auc", "meal_peak"]

/-- `agg_spec`: the aggregation dictionary built from columns present in the
meals frame; `true` marks `"sum"`, `false` marks `"mean"`. -/
def aggSpecOf (meals : Frame) : List (String × Bool) :=
  (sumAggCols.filter meals.hasCol).map (fun c => (c, true)) ++
  (meanAggCols.filter meals.hasCol).map (fun c => (c, false))

/-- pandas groupby `sum` aggregation of one group: sum of the observed numeric
values (an empty or all-missing group sums to 0). -/
def aggSum (vals : List Val) : Val := .num (obsVals (colNum vals)).sum

/-- pandas groupby `mean` aggregation of one group: mean of the observed
values, missing when none are observed. -/
def aggMean (vals : List Val) : Val :=
  match pdMean (colNum vals) with
  | some m => .num m
  | none => .missing

/-- Row indices of one groupby group. -/
def groupIdx (dc : List Val) (key : Val) : List ℕ :=
  (List.range dc.length).filter (fun i => dc.getD i .missing == key)

/-- The group keys of `groupby("date")`: distinct date values in ascending
order (pandas sorts group keys). -/
def groupKeys (dc : List Val) : List Val :=
  dc.dedup.insertionSort (fun a b => Val.le a b = true)

/-- `meals.groupby("date").agg(agg_spec).reset_index()`. -/
def groupbyAgg (meals : Frame) (spec : List (String × Bool)) : Frame :=
  let dc := (meals.get "date").getD []
  let keys := groupKeys dc
  ⟨("date", keys) ::
    spec.map (fun s =>
      let col := (meals.get s.1).getD []
      (s.1, keys.map (fun k =>
        (if s.2 then aggSum else aggMean)
          ((groupIdx dc k).map (fun i => col.getD i .missing)))))⟩

/-- `daily.merge(daily_meals, on="date", how="inner")`: keep the left rows
whose date occurs on the right, in left order, appending the right frame's
non-date columns matched by date (the right dates are unique here, coming from
a groupby; column names other than "date" are disjoint between the frames). -/
def Frame.merge (left right : Frame) : Frame :=
  let ld := (left.get "date").getD []
  let rd := (right.get "date").getD []
  let keep := (List.range ld.length).filter (fun i => rd.contains (ld.getD i .missing))
  let matchIdx := fun i =>
    (List.range rd.length).find? (fun j => rd.getD j .missing == ld.getD i .missing)
  ⟨left.cols.map (fun c => (c.1, keep.map (fun i => c.2.getD i .missing))) ++
   (right.cols.filter (fun c => !(c.1 == "date"))).map (fun c =>
     (c.1, keep.map (fun i =>
       match matchIdx i with
       | some j => c.2.getD j .missing
       | none => .missing)))⟩

def health_metrics : List String :=
  ["sleep_hours", "hrv", "rhr", "fg_fast_mgdl", "steps", "workout_min"]

def nutrition_metrics : List String :=
  ["carbs_g", "protein_g", "fat_g", "fiber_g", "late_meal", "post_meal_walk10"]

def metabolic_metrics : List String := ["meal_auc", "meal_peak"]

def all_metrics : List String := health_metrics ++ nutrition_metrics ++ metabolic_metrics

/-- `itertools.combinations(l, 2)` in source order. -/
def pairsOf : List α → List (α × α)
  | [] => []
  | x :: xs => xs.map (fun y => (x, y)) ++ pairsOf xs

/-- `tuple(sorted([metric1, metric2]))` (Python compares strings by code
points, as Lean's `String` order does). -/
def sortedPair (m1 m2 : String) : String × String :=
  if strLtB m2 m1 then (m2, m1) else (m1, m2)

/-- The allow-list of `_is_hidden_correlation`, in source order.  Note that the
third and fifth entries are not in sorted order. -/
def obvious_pairs : List (String × String) :=
  [("carbs_g", "meal_auc"), ("carbs_g", "meal_peak"), ("sleep_hours", "hrv"),
   ("steps", "workout_min"), ("protein_g", "fat_g")]

/-- `_is_hidden_correlation(metric1, metric2)`. -/
def _is_hidden_correlation (metric1 metric2 : String) : Bool :=
  !(obvious_pairs.contains (sortedPair metric1 metric2))

/-- `_interpret_correlation(metric1, metric2, r)`. -/
def _interpret_correlation (metric1 metric2 : String) (r : ℚ) : String :=
  let strength := if 7/10 < |r| then "strong" else if 1/2 < |r| then "moderate" else "weak"
  let direction := if 0 < r then "increases" else "decreases"
  let interpretations : List ((String × String) × String) :=
    [(("sleep_hours", "fg_fast_mgdl"), s!"More sleep {direction} fasting glucose levels"),
     (("hrv", "meal_auc"), s!"Higher HRV {direction} post-meal glucose response"),
     (("late_meal", "sleep_hours"), s!"Late meals {direction} sleep duration"),
     (("post_meal_walk10", "meal_peak"), s!"Post-meal walks {direction} glucose peaks"),
     (("fiber_g", "meal_auc"), s!"Higher fiber intake {direction} glucose response"),
     (("workout_min", "hrv"), s!"More exercise {direction} heart rate variability")]
  match interpretations.find? (fun kv => kv.1 == sortedPair metric1 metric2) with
  | some kv => kv.2
  | none => s!"{metric1} and {metric2} show {strength} correlation"

def actionable_metrics : List String :=
  ["sleep_hours", "late_meal", "post_meal_walk10", "fiber_g", "workout_min"]

/-- `_is_actionable_correlation(metric1, metric2)`. -/
def _is_actionable_correlation (metric1 metric2 : String) : Bool :=
  actionable_metrics.contains metric1 || actionable_metrics.contains metric2

/-- One retained discovery-mode result (the dict appended by
`discover_hidden_correlations`). -/
structure CorrEntry where
  metric1 : String
  metric2 : String
  correlation : ℚ
  p_value : ℚ
  sample_size : ℕ
  is_hidden : Bool
  interpretation : String
  actionable : Bool
deriving DecidableEq, Inhabited

/-- The Python sort key comparison: `(is_hidden, abs(correlation))` compared
lexicographically (`False < True` on booleans). -/
def keyLE (a b : Bool × ℚ) : Prop :=
  (a.1 = false ∧ b.1 = true) ∨ (a.1 = b.1 ∧ a.2 ≤ b.2)

instance : DecidableRel keyLE := fun a b =>
  inferInstanceAs (Decidable ((a.1 = false ∧ b.1 = true) ∨ (a.1 = b.1 ∧ a.2 ≤ b.2)))

/-- `a` may come before `b` in `correlations.sort(key=..., reverse=True)`. -/
def entryGE (a b : CorrEntry) : Prop :=
  keyLE (b.is_hidden, |b.correlation|) (a.is_hidden, |a.correlation|)

instance : DecidableRel entryGE := fun a b =>
  inferInstanceAs (Decidable (keyLE (b.is_hidden, |b.correlation|) (a.is_hidden, |a.correlation|)))

instance : IsTotal CorrEntry entryGE := by
  constructor
  intro a b
  unfold entryGE keyLE
  rcases hb : b.is_hidden <;> rcases ha : a.is_hidden <;>
    simp <;> exact le_total _ _

instance : IsTrans CorrEntry entryGE := by
  constructor
  intro a b c hab hbc
  unfold entryGE keyLE at *
  rcases hab with ⟨h1, h2⟩ | ⟨h1, h2⟩ <;> rcases hbc with ⟨h3, h4⟩ | ⟨h3, h4⟩ <;>
    simp_all
  exact le_trans h4 h2

/-- Body of `discover_hidden_correlations` after the in-place date conversion
succeeded (from the `if "date" not in meals.columns` guard on). -/
def discoverCore (pearson spearman : List ℚ → List ℚ → ℚ × ℚ)
    (daily meals : Frame) (min_correlation : ℚ) : List CorrEntry :=
  if !(meals.hasCol "date") then []
  else
    let agg_spec := aggSpecOf meals
    if agg_spec.isEmpty then []
    else
      let daily_meals := groupbyAgg meals agg_spec
      let combined := daily.merge daily_meals
      let available_metrics := all_metrics.filter combined.hasCol
      let correlations := (pairsOf available_metrics).filterMap (fun mm =>
        match corr_with_p pearson spearman
            (colNum ((combined.get mm.1).getD []))
            (colNum ((combined.get mm.2).getD [])) with
        | (some r, some p, n) =>
          if min_correlation ≤ |r| ∧ p < 1/20 ∧ 20 ≤ n then
            some { metric1 := mm.1, metric2 := mm.2, correlation := r, p_value := p,
                   sample_size := n, is_hidden := _is_hidden_correlation mm.1 mm.2,
                   interpretation := _interpret_correlation mm.1 mm.2 r,
                   actionable := _is_actionable_correlation mm.1 mm.2 }
          else none
        | _ => none)
      (correlations.insertionSort entryGE).take 10

/-- `discover_hidden_correlations(daily, meals, min_correlation)`.
The Python function assigns the converted date columns back into the caller's
frames (`meals['date'] = pd.to_datetime(meals['date'])`, then the same for
`daily`), so the post-call states of both frames are part of the result:
the second and third components are the caller's `daily` and `meals` after the
call.  A missing `date` column raises KeyError (`.error`), leaving whatever
state was already written. -/
def discover_hidden_correlations (pearson spearman : List ℚ → List ℚ → ℚ × ℚ)
    (daily meals : Frame) (min_correlation : ℚ := 3/10) :
    Except Unit (List CorrEntry) × Frame × Frame :=
  match meals.get "date" with
  | none => (.error (), daily, meals)
  | some mc =>
    let meals' := meals.set "date" (mc.map pdToDatetime)
    match daily.get "date" with
    | none => (.error (), daily, meals')
    | some dc =>
      let daily' := daily.set "date" (dc.map pdToDatetime)
      (.ok (discoverCore pearson spearman daily' meals' min_correlation), daily', meals')

/-- The list a successful discovery call hands back to the caller. -/
def discoveredList (pearson spearman : List ℚ → List ℚ → ℚ × ℚ)
    (daily meals : Frame) (min_correlation : ℚ) : List CorrEntry :=
  match (discover_hidden_correlations pearson spearman daily meals min_correlation).1 with
  | .ok l => l
  | .error _ => []

/-- One retained lag-mode result (the dict appended by
`find_lag_correlations`). -/
structure LagEntry where
  predictor : String
  outcome : String
  lag_days : ℕ
  correlation : ℚ
  p_value : ℚ
  sample_size : ℕ
  description : String
  interpretation : String
deriving DecidableEq, Inhabited

/-- The fixed lead-lag hypotheses tested by `find_lag_correlations`. -/
def relationships : List (String × String × String) :=
  [("sleep_hours", "fg_fast_mgdl", "Sleep quality affects next day glucose"),
   ("hrv", "fg_fast_mgdl", "HRV affects next day glucose"),
   ("workout_min", "sleep_hours", "Exercise affects sleep quality"),
   ("steps", "hrv", "Activity affects next day HRV")]

/-- `daily.sort_values('date')`: reorder every column by ascending date.
A missing date column raises KeyError. -/
def Frame.sortValuesDate (f : Frame) : Except Unit Frame :=
  match f.get "date" with
  | none => .error ()
  | some dc =>
    let idx := (List.range dc.length).insertionSort
      (fun i j => Val.le (dc.getD i .missing) (dc.getD j .missing) = true)
    .ok ⟨f.cols.map (fun c => (c.1, idx.map (fun i => c.2.getD i .missing)))⟩

/-- `series.shift(lag)`: push values down by `lag` positions, the first `lag`
entries becoming missing. -/
def shiftCol (lag : ℕ) (c : List Val) : List Val :=
  List.replicate lag .missing ++ c.take (c.length - lag)

/-- The inner loop of `find_lag_correlations` for one (predictor, outcome,
description) hypothesis over the date-sorted frame: test lags `1..max_lag`,
retaining `|r| >= 0.3 and p < 0.05 and n >= 15`. -/
def lagEntriesFor (pearson spearman : List ℚ → List ℚ → ℚ × ℚ)
    (ds : Frame) (max_lag : ℕ) : String × String × String → List LagEntry
  | (predictor, outcome, description) =>
    let pc := (ds.get predictor).getD []
    let oc := (ds.get outcome).getD []
    (List.range' 1 max_lag).filterMap (fun lag =>
      match corr_with_p pearson spearman (colNum (shiftCol lag pc)) (colNum oc) with
      | (some r, some p, n) =>
        if 3/10 ≤ |r| ∧ p < 1/20 ∧ 15 ≤ n then
          let lagDays := toString lag
          let lowered := description.toLower
          some { predictor := predictor, outcome := outcome, lag_days := lag,
                 correlation := r, p_value := p, sample_size := n,
                 description := description,
                 interpretation := s!"{predictor} from {lagDays} day(s) ago {lowered}" }
        else none
      | _ => none)

/-- `a` may come before `b` in `sorted(..., key=abs(correlation),
reverse=True)`. -/
def lagGE (a b : LagEntry) : Prop := |b.correlation| ≤ |a.correlation|

instance : DecidableRel lagGE := fun a b =>
  inferInstanceAs (Decidable (|b.correlation| ≤ |a.correlation|))

instance : IsTotal LagEntry lagGE := ⟨fun _ _ => le_total _ _⟩

instance : IsTrans LagEntry lagGE := ⟨fun _ _ _ hab hbc => le_trans hbc hab⟩

/-- The `for predictor, outcome, description in relationships` loop of
`find_lag_correlations`: skip a hypothesis when either column is absent,
otherwise sort the frame by date (`KeyError` — `.error` — when no date column
exists) and append that hypothesis' retained lag results. -/
def lagLoop (pearson spearman : List ℚ → List ℚ → ℚ × ℚ) (daily : Frame)
    (max_lag : ℕ) : List (String × String × String) → List LagEntry →
    Except Unit (List LagEntry)
  | [], acc => .ok acc
  | rel :: rels, acc =>
    if daily.hasCol rel.1 && daily.hasCol rel.2.1 then
      match daily.sortValuesDate with
      | .error u => .error u
      | .ok ds =>
        lagLoop pearson spearman daily max_lag rels
          (acc ++ lagEntriesFor pearson spearman ds max_lag rel)
    else lagLoop pearson spearman daily max_lag rels acc

/-- `find_lag_correlations(daily, max_lag)`: run the hypothesis loop, then
sort the retained results by `|r|` descending.  The loop works on
`daily.sort_values('date').copy()`, so the caller's frame is untouched. -/
def find_lag_correlations (pearson spearman : List ℚ → List ℚ → ℚ × ℚ)
    (daily : Frame) (max_lag : ℕ := 3) : Except Unit (List LagEntry) :=
  match lagLoop pearson spearman daily max_lag relationships [] with
  | .error u => .error u
  | .ok l => .ok (l.insertionSort lagGE)

/-- The list a successful lag-mode call hands back to the caller. -/
def lagList (pearson spearman : List ℚ → List ℚ → ℚ × ℚ)
    (daily : Frame) (max_lag : ℕ) : List LagEntry :=
  match find_lag_correlations pearson spearman daily max_lag with
  | .ok l => l
  | .error _ => []

/-! ## `app/ml/anomalies.py` -/

/-- The trailing window of at most `w` points ending at index `i`
(pandas `rolling(w)` uses the points `max(0, i+1-w) .. i`). -/
def windowAt (s : List (Option ℚ)) (w i : ℕ) : List (Option ℚ) :=
  (s.take (i + 1)).drop (i + 1 - w)

/-- `s.rolling(14, min_periods=7).median()` at index `i`: pandas' built-in
rolling median skips missing values inside the window and emits a value once
at least 7 points of the window are observed. -/
def rollingMedian (s : List (Option ℚ)) (i : ℕ) : Option ℚ :=
  let w := windowAt s 14 i
  if 7 ≤ (obsVals w).length then some (npMedian (obsVals w)) else none

/-- `s.rolling(14, min_periods=7).apply(lambda x: np.median(np.abs(x -
np.median(x))), raw=True)` at index `i`.  With `raw=True` pandas hands the
lambda the raw window *including* its NaN entries (`min_periods` only gates on
the count of observed points), and `np.median` of an array containing NaN is
NaN — so the MAD is missing whenever any point of the window is missing. -/
def rollingMadCode (s : List (Option ℚ)) (i : ℕ) : Option ℚ :=
  let w := windowAt s 14 i
  if 7 ≤ (obsVals w).length then
    if w.all Option.isSome then
      some (npMedian ((obsVals w).map (fun x => |x - npMedian (obsVals w)|)))
    else none
  else none

/-- The rolling MAD the spec describes ("missing values inside a rolling
window are excluded from that window's median/MAD"): the MAD of the observed
points only.  Comparison definition for claim C3, written from the spec's
words. -/
def rollingMadObserved (s : List (Option ℚ)) (i : ℕ) : Option ℚ :=
  let w := windowAt s 14 i
  if 7 ≤ (obsVals w).length then
    some (npMedian ((obsVals w).map (fun x => |x - npMedian (obsVals w)|)))
  else none

/-- `z = (s - med) / (1.4826 * (mad + 1e-6))` at index `i` (elementwise float
arithmetic: NaN whenever the point, its rolling median or its rolling MAD is
NaN). -/
def zScore (s : List (Option ℚ)) (i : ℕ) : Option ℚ :=
  match s.getD i none, rollingMedian s i, rollingMadCode s i with
  | some x, some med, some mad => some ((x - med) / (14826/10000 * (mad + 1/1000000)))
  | _, _, _ => none

/-- `flags = (z > k)` at index `i` (a NaN z-score compares false). -/
def flagAt (s : List (Option ℚ)) (k : ℚ) (i : ℕ) : Bool :=
  match zScore s i with
  | some z => decide (k < z)
  | none => false

/-- The flag vector of a series. -/
def flagsOf (s : List (Option ℚ)) (k : ℚ) : List Bool :=
  (List.range s.length).map (flagAt s k)

/-- The flagged-run scan of `anomaly_runs`, yielding `(start, end)` index
pairs.  `i` is the position of the next element of `rest` inside the full flag
vector of length `n`, `start` the index where the currently open run began,
and `acc` the runs already closed:

    for i, v in enumerate(flags):
        if v and start is None: start = i
        if not v and start is not None:
            if i - start >= min_run: runs.append(... start .. i-1 ...)
            start = None
    if start is not None and len(series) - start >= min_run:
        runs.append(... start .. len-1 ...) -/
def scanRuns (minRun n : ℕ) : ℕ → Option ℕ → List (ℕ × ℕ) → List Bool → List (ℕ × ℕ)
  | _, start, acc, [] =>
    match start with
    | none => acc
    | some s => if minRun ≤ n - s then acc ++ [(s, n - 1)] else acc
  | i, start, acc, v :: rest =>
    if v then scanRuns minRun n (i + 1) (some (start.getD i)) acc rest
    else
      match start with
      | none => scanRuns minRun n (i + 1) none acc rest
      | some s =>
        scanRuns minRun n (i + 1) none
          (if minRun ≤ i - s then acc ++ [(s, i - 1)] else acc) rest

/-- One reported anomaly run: the tuple
`(dates.iloc[start], dates.iloc[end], float(series[start:end+1].mean()),
float(med.iloc[end]))` appended by `anomaly_runs` (both append sites produce
this same shape: at the closing site `i = end+1`, at the end-of-series site
`end = len-1`). -/
structure AnomalyRun where
  start_date : ℚ
  end_date : ℚ
  mean_during_run : Option ℚ
  baseline_at_end : Option ℚ
deriving DecidableEq

/-- The record built for the index span `s..e`. -/
def mkRun (dates : List ℚ) (series : List (Option ℚ)) (se : ℕ × ℕ) : AnomalyRun :=
  { start_date := dates.getD se.1 0
    end_date := dates.getD se.2 0
    mean_during_run := pdMean ((series.drop se.1).take (se.2 + 1 - se.1))
    baseline_at_end := rollingMedian series se.2 }

/-- `anomaly_runs(dates, series, k, min_run)`. -/
def anomaly_runs (dates : List ℚ) (series : List (Option ℚ))
    (k : ℚ := 5/2) (min_run : ℕ := 3) : List AnomalyRun :=
  (scanRuns min_run series.length 0 none [] (flagsOf series k)).map
    (mkRun dates series)

/-! ## `app/ml/causal.py` -/

/-- `np.percentile(vals, q)` with the default linear interpolation: sort
ascending, take the value at fractional rank `q/100 * (len-1)`. -/
def npPercentile (vals : List ℚ) (q : ℚ) : ℚ :=
  let s := vals.insertionSort (· ≤ ·)
  let rank := q / 100 * ((s.length : ℚ) - 1)
  let lo := ⌊rank⌋.toNat
  let frac := rank - ⌊rank⌋
  s.getD lo 0 + frac * (s.getD (lo + 1) 0 - s.getD lo 0)

/-- `_bootstrap_ci(vals, iters=300, alpha=0.05)`.
`np.random.randint(0, len(vals), (iters, len(vals)))` reads `iters*len(vals)`
draws from numpy's process-global generator — not from any caller-supplied
seed.  The ambient global state is modelled as the stream `rng`, whose value
at `t` supplies the `t`-th draw (reduced mod `len(vals)`, row-major). -/
def _bootstrap_ci (rng : ℕ → ℕ) (vals : List ℚ) (iters : ℕ := 300)
    (alpha : ℚ := 1/20) : ℚ × ℚ :=
  let n := vals.length
  let boots := (List.range iters).map (fun j =>
    npMean ((List.range n).map (fun i => vals.getD (rng (j * n + i) % n) 0)))
  (npPercentile boots (100 * alpha / 2), npPercentile boots (100 * (1 - alpha / 2)))

/-- One row of a causal request, already restricted to its role columns
(`df[[treat_col, outcome_col] + confounders]`). -/
structure CRow where
  treat : Option ℚ
  outcome : Option ℚ
  confs : List (Option ℚ)
deriving DecidableEq

/-- Listwise deletion: `use = df[[treat_col, outcome_col] + confounders].dropna()`. -/
def dropnaRows (df : List CRow) : List CRow :=
  df.filter (fun r => r.treat.isSome && r.outcome.isSome && r.confs.all Option.isSome)

/-- `.astype(int)` on a float value: truncation toward zero. -/
def npToInt (q : ℚ) : ℤ := if 0 ≤ q then ⌊q⌋ else ⌈q⌉

structure EffectEstimate where
  ate : ℚ
  ci : ℚ × ℚ
  n : ℕ
deriving DecidableEq

/-- Elementwise numpy vector arithmetic. -/
def vAdd (a b : List ℚ) : List ℚ := List.zipWith (· + ·) a b

def vSub (a b : List ℚ) : List ℚ := List.zipWith (· - ·) a b

def vMul (a b : List ℚ) : List ℚ := List.zipWith (· * ·) a b

def vDiv (a b : List ℚ) : List ℚ := List.zipWith (· / ·) a b

/-- `X[T==c]` / `Y[T==c]`: the entries whose treatment value is `c`. -/
def armSel (T : List ℤ) (c : ℤ) (v : List α) : List α :=
  ((T.zip v).filter (fun p => p.1 == c)).map Prod.snd

/-- `doubly_robust_ate(df, treat_col, outcome_col, confounders)`, with the role
columns already resolved into `CRow`s.

* `logitFn X T` stands for
  `LogisticRegression(max_iter=1000).fit(X, T).predict_proba(X)[:, 1]`.
  sklearn's `fit` raises `ValueError` when the target contains fewer than two
  distinct classes; that input contract is embedded explicitly, the solver
  itself is a parameter.
* `linFn trainX trainY testX` stands for
  `LinearRegression().fit(trainX, trainY).predict(testX)`.
* `rng` is the ambient numpy global random state read by the bootstrap.

`.ok none` is the Python `return None` ("insufficient data"), `.ok (some _)`
the returned dict, `.error ()` a propagated fitting exception. -/
def doubly_robust_ate
    (logitFn : List (List ℚ) → List ℤ → List ℚ)
    (linFn : List (List ℚ) → List ℚ → List (List ℚ) → List ℚ)
    (rng : ℕ → ℕ) (df : List CRow) : Except Unit (Option EffectEstimate) :=
  let use := dropnaRows df
  if use.length < 30 then .ok none
  else
    let X := use.map (fun r => r.confs.map (fun o => o.getD 0))
    let T : List ℤ := use.map (fun r => npToInt (r.treat.getD 0))
    let Y : List ℚ := use.map (fun r => r.outcome.getD 0)
    if T.dedup.length < 2 then .error ()
    else
      let p := logitFn X T
      let eps : ℚ := 1/1000000
      let mu0 := if T.any (fun t => t == 0) then linFn (armSel T 0 X) (armSel T 0 Y) X
                 else List.replicate Y.length (npMean Y)
      let mu1 := if T.any (fun t => t == 1) then linFn (armSel T 1 X) (armSel T 1 Y) X
                 else List.replicate Y.length (npMean Y)
      let Tf : List ℚ := T.map Int.cast
      let dr := vAdd
        (vSub (vDiv (vMul Tf (vSub Y mu1)) (p.map (fun x => x + eps)))
              (vDiv (vMul (Tf.map (fun t => 1 - t)) (vSub Y mu0))
                    (p.map (fun x => 1 - x + eps))))
        (vSub mu1 mu0)
      let ate := npMean dr
      let ci := _bootstrap_ci rng dr 300 (1/20)
      .ok (some { ate := ate, ci := ci, n := use.length })

/-- The reported sample size, when an estimate was returned. -/
def resultN : Except Unit (Option EffectEstimate) → Option ℕ
  | .ok (some e) => some e.n
  | _ => none

/-- The reported ATE, when an estimate was returned. -/
def resultAte : Except Unit (Option EffectEstimate) → Option ℚ
  | .ok (some e) => some e.ate
  | _ => none

/-- The reported CI bounds, when an estimate was returned. -/
def resultCI : Except Unit (Option EffectEstimate) → Option (ℚ × ℚ)
  | .ok (some e) => some e.ci
  | _ => none

/-- Decidable equality on `Except`, needed to evaluate result values. -/
instance {ε α : Type} [DecidableEq ε] [DecidableEq α] : DecidableEq (Except ε α) := fun a b =>
  match a, b with
  | .error e, .error f =>
    match decEq e f with
    | isTrue h => isTrue (congrArg Except.error h)
    | isFalse h => isFalse (fun hh => h (by cases hh; rfl))
  | .error _, .ok _ => isFalse (fun hh => Except.noConfusion hh)
  | .ok _, .error _ => isFalse (fun hh => Except.noConfusion hh)
  | .ok x, .ok y =>
    match decEq x y with
    | isTrue h => isTrue (congrArg Except.ok h)
    | isFalse h => isFalse (fun hh => h (by cases hh; rfl))

/-! ## Concrete instances used by counterexamples and witnesses -/

/-- A correlation oracle standing in for scipy on concrete inputs: every call
reports `r = 1`, `p = 0`. -/
def constOneCorr : List ℚ → List ℚ → ℚ × ℚ := fun _ _ => (1, 0)

/-- 20 distinct raw date strings ("100" … "119", lexicographically ordered). -/
def dates20 : List Val := (List.range 20).map (fun i => Val.raw (toString (100 + i)))

/-- 20 distinct numeric values. -/
def nums20 : List Val := (List.range 20).map (fun i => Val.num i)

/-- A 20-day daily frame with two health metrics. -/
def dailyEx : Frame := ⟨[("date", dates20), ("sleep_hours", nums20), ("hrv", nums20)]⟩

/-- A 20-row meals frame with one sum-aggregated metric. -/
def mealsEx : Frame := ⟨[("date", dates20), ("carbs_g", nums20)]⟩

/-- A one-row daily frame with an unparsed date column. -/
def dailySmall : Frame := ⟨[("date", [.raw "2024-01-01"]), ("sleep_hours", [.num 7])]⟩

/-- A one-row meals frame with an unparsed date column. -/
def mealsSmall : Frame := ⟨[("date", [.raw "2024-01-01"]), ("carbs_g", [.num 50])]⟩

/-- Seven observed points followed by one missing point: at index 7 the
trailing window holds 7 observed values and one NaN. -/
def seriesWithNaN : List (Option ℚ) := List.replicate 7 (some 1) ++ [none]

/-- A propensity oracle standing in for the fitted
`LogisticRegression(...).predict_proba(X)[:, 1]` on concrete inputs:
probability 1/2 for every row. -/
def halfFit : List (List ℚ) → List ℤ → List ℚ := fun X _ => X.map (fun _ => 1/2)

/-- An outcome-regression oracle standing in for the fitted
`LinearRegression().predict`: prediction 0 for every row. -/
def zeroLin : List (List ℚ) → List ℚ → List (List ℚ) → List ℚ :=
  fun _ _ testX => testX.map (fun _ => 0)

/-- 30 complete rows whose treatment column is constantly 0 (one arm empty). -/
def rowsAllControl : List CRow := List.replicate 30 ⟨some 0, some 1, [some 1]⟩

/-- 30 complete rows, 15 treated with outcome 1 and 15 control with outcome 0. -/
def rowsBalanced : List CRow :=
  List.replicate 15 ⟨some 1, some 1, [some 1]⟩ ++ List.replicate 15 ⟨some 0, some 0, [some 1]⟩

/-- `X = use[confounders].values`: the confounder matrix of the surviving rows. -/
def Xof (df : List CRow) : List (List ℚ) :=
  (dropnaRows df).map (fun r => r.confs.map (fun o => o.getD 0))

/-- `T = use[treat_col].values.astype(int)`: the treatment vector of the
surviving rows. -/
def Tof (df : List CRow) : List ℤ :=
  (dropnaRows df).map (fun r => npToInt (r.treat.getD 0))

/-- `Y = use[outcome_col].values.astype(float)`: the outcome vector of the
surviving rows. -/
def Yof (df : List CRow) : List ℚ :=
  (dropnaRows df).map (fun r => r.outcome.getD 0)

/-- The spec's per-row doubly robust score (claim C7's formula):
`T_i*(Y_i - mu1(x_i))/(p(x_i)+eps) - (1-T_i)*(Y_i - mu0(x_i))/(1-p(x_i)+eps)
+ (mu1(x_i) - mu0(x_i))`. -/
def drScore (eps : ℚ) (t : ℤ) (y m0 m1 pr : ℚ) : ℚ :=
  (t : ℚ) * (y - m1) / (pr + eps) - (1 - (t : ℚ)) * (y - m0) / (1 - pr + eps) + (m1 - m0)

/-- The per-row doubly robust scores of a sample, row by row (claim-side
description of the `dr` vector). -/
def drPointwise (eps : ℚ) : List ℤ → List ℚ → List ℚ → List ℚ → List ℚ → List ℚ
  | t :: ts, y :: ys, a :: ars, b :: bs, q :: qs =>
      drScore eps t y a b q :: drPointwise eps ts ys ars bs qs
  | _, _, _, _, _ => []

/-- 16 distinct raw date strings. -/
def dates16 : List Val := (List.range 16).map (fun i => Val.raw (toString (100 + i)))

/-- A 16-day daily frame carrying one lead-lag hypothesis
(sleep_hours to fg_fast_mgdl). -/
def daily16 : Frame :=
  ⟨[("date", dates16),
    ("sleep_hours", (List.range 16).map (fun i => Val.num i)),
    ("fg_fast_mgdl", (List.range 16).map (fun i => Val.num i))]⟩

/-- A maximal flagged run over a raw flag vector: all indices in `[s, e]` are
flagged, the span has at least `m` points, and any adjacent index is unflagged
(or off the end of the vector). -/
def BoolRun (F : List Bool) (m s e : ℕ) : Prop :=
  s ≤ e ∧ e < F.length ∧ m ≤ e + 1 - s ∧
  (∀ j, s ≤ j → j ≤ e → F.getD j false = true) ∧
  (s = 0 ∨ F.getD (s - 1) false = false) ∧
  (e = F.length - 1 ∨ F.getD (e + 1) false = false)

/-- Claim C8's run description: `[s, e]` is a maximal contiguous span of
indices whose robust z-score exceeds `k` (an adjacent flagged index would be
included), of length at least `m`. -/
def MaxRun (series : List (Option ℚ)) (k : ℚ) (m s e : ℕ) : Prop :=
  s ≤ e ∧ e < series.length ∧ m ≤ e + 1 - s ∧
  (∀ i, s ≤ i → i ≤ e → flagAt series k i = true) ∧
  (s = 0 ∨ flagAt series k (s - 1) = false) ∧
  (e = series.length - 1 ∨ flagAt series k (e + 1) = false)

/-- 13 consecutive daily dates (as day numbers). -/
def dates13 : List ℚ := (List.range 13).map (fun i => i)

/-- Ten quiet points followed by a three-day level shift. -/
def series13 : List (Option ℚ) := List.replicate 10 (some 1) ++ List.replicate 3 (some 100)

/-! ## Theorems -/

/-- C1 (code evaluation at the failing input): `_is_hidden_correlation`
compares the *sorted* pair against an allow-list whose entries
`('sleep_hours', 'hrv')` and `('protein_g', 'fat_g')` are not themselves
sorted, so those two pairs can never match and are classified hidden in
either argument order — contradicting the claim that all five allow-list
pairs are classified obvious.  The sorted entries of the list still work. -/
theorem is_hidden_misclassifies_unsorted_allowlist_entries :
    _is_hidden_correlation "sleep_hours" "hrv" = true ∧
    _is_hidden_correlation "hrv" "sleep_hours" = true ∧
    _is_hidden_correlation "protein_g" "fat_g" = true ∧
    _is_hidden_correlation "fat_g" "protein_g" = true ∧
    _is_hidden_correlation "carbs_g" "meal_auc" = false ∧
    _is_hidden_correlation "meal_auc" "carbs_g" = false ∧
    _is_hidden_correlation "carbs_g" "meal_peak" = false ∧
    _is_hidden_correlation "steps" "workout_min" = false := by
  with_unfolding_all decide

/-- C2 (counterexample): `discover_hidden_correlations` rewrites the `date`
column of the caller's meals frame in place (`meals['date'] =
pd.to_datetime(meals['date'])`), so the caller-supplied table is *not*
unchanged after the call: with a string-dated meals frame the post-call state
differs from the input. -/
theorem discover_mutates_caller_meals :
    (discover_hidden_correlations constOneCorr constOneCorr
        dailySmall mealsSmall (3/10)).2.2 ≠ mealsSmall := by
  with_unfolding_all decide

/-- C2 (amended): the only frame effect of the listed estimators is the
in-place datetime conversion of the two `date` columns performed at the top of
`discover_hidden_correlations`: the post-call states of the caller's frames
are exactly the input frames with their `date` columns mapped through
`pd.to_datetime` (the meals frame first; a conversion that raises KeyError
leaves the remaining frames untouched).  No other column is added and no
other value is rewritten; no state is carried between calls. -/
theorem discover_frame_effect_is_date_conversion
    (pe sp : List ℚ → List ℚ → ℚ × ℚ) (daily meals : Frame) (minc : ℚ) :
    (discover_hidden_correlations pe sp daily meals minc).2 =
      match meals.get "date" with
      | none => (daily, meals)
      | some mc =>
        match daily.get "date" with
        | none => (daily, meals.set "date" (mc.map pdToDatetime))
        | some dc =>
          (daily.set "date" (dc.map pdToDatetime),
           meals.set "date" (mc.map pdToDatetime)) := by
  unfold discover_hidden_correlations
  cases h1 : meals.get "date" <;> cases h2 : daily.get "date" <;> simp

/-- C3 (code evaluation at the failing input): with seven observed points and
one missing point in the trailing window, the code's rolling MAD is NaN —
`rolling(...).apply(..., raw=True)` hands `np.median` the raw window
containing the NaN — whereas the MAD over only the observed points (what the
claim states) exists and is 0; the rolling median (pandas built-in) does skip
the missing point.  A point whose MAD is NaN gets a NaN z-score and can never
flag. -/
theorem rolling_mad_not_computed_over_observed_points :
    rollingMadCode seriesWithNaN 7 = none ∧
    rollingMadObserved seriesWithNaN 7 = some 0 ∧
    rollingMedian seriesWithNaN 7 = some 1 := by
  with_unfolding_all decide

/-- C5 (code evaluation at the failing input): when exactly one treatment arm
is empty — a binary treatment column that is constantly 0 — the call fails:
`LogisticRegression.fit(X, T)` raises `ValueError` on a single-class target
before the constant-mean fallback for the empty arm is ever reached, although
30 complete rows survive listwise deletion. -/
theorem ate_raises_when_one_arm_empty :
    doubly_robust_ate halfFit zeroLin (fun _ => 0) rowsAllControl = .error () ∧
    30 ≤ (dropnaRows rowsAllControl).length := by
  with_unfolding_all decide

/-- C6: `doubly_robust_ate` returns "no result" (`None`) exactly when fewer
than 30 rows survive listwise deletion over the treatment, outcome and
confounder columns, whatever else the table contains; and any returned
estimate reports `n` equal to the count of surviving rows (a propagated
fitting exception returns nothing at all, and so reports no `n`). -/
theorem ate_no_result_iff_insufficient_rows
    (logitFn : List (List ℚ) → List ℤ → List ℚ)
    (linFn : List (List ℚ) → List ℚ → List (List ℚ) → List ℚ)
    (rng : ℕ → ℕ) (df : List CRow) :
    (doubly_robust_ate logitFn linFn rng df = .ok none ↔ (dropnaRows df).length < 30) ∧
    (resultN (doubly_robust_ate logitFn linFn rng df) = none ∨
     resultN (doubly_robust_ate logitFn linFn rng df) = some (dropnaRows df).length) := by
  unfold doubly_robust_ate
  by_cases h : (dropnaRows df).length < 30
  · simp [h, resultN]
  · simp only [if_neg h]
    by_cases h2 : ((dropnaRows df).map (fun r => npToInt (r.treat.getD 0))).dedup.length < 2
    · simp [h2, resultN, h]
    · simp [h2, resultN, h]

set_option maxRecDepth 100000 in
set_option maxHeartbeats 4000000 in
/-- C4 (counterexample): there is no seed parameter anywhere in
`_bootstrap_ci` or `doubly_robust_ate` — the bootstrap indices come from
numpy's process-global generator.  Two calls on *equal* caller inputs return
different ci bounds under different ambient global states, so the computation
is not parameterized by a caller-injectable seed as claimed. -/
theorem bootstrap_ci_reads_process_global_state :
    resultCI (doubly_robust_ate halfFit zeroLin (fun _ => 0) rowsBalanced) ≠
    resultCI (doubly_robust_ate halfFit zeroLin (fun _ => 15) rowsBalanced) := by
  with_unfolding_all decide

/-- C4 (amended): the bootstrap ci bounds are a deterministic function of the
caller's inputs *and* the ambient global random stream — the call consumes
exactly the first `iters * len(vals)` global draws, and two calls whose
ambient streams agree on those draws return identical bounds.  Reproducibility
therefore requires controlling the process-global state; no seed argument
exists. -/
theorem bootstrap_ci_determined_by_consumed_draws
    (vals : List ℚ) (iters : ℕ) (alpha : ℚ) (rng1 rng2 : ℕ → ℕ)
    (h : ∀ t, t < iters * vals.length → rng1 t = rng2 t) :
    _bootstrap_ci rng1 vals iters alpha = _bootstrap_ci rng2 vals iters alpha := by
  simp only [_bootstrap_ci]
  have hb : (List.range iters).map (fun j => npMean ((List.range vals.length).map
        (fun i => vals.getD (rng1 (j * vals.length + i) % vals.length) 0))) =
      (List.range iters).map (fun j => npMean ((List.range vals.length).map
        (fun i => vals.getD (rng2 (j * vals.length + i) % vals.length) 0))) := by
    apply List.map_congr_left
    intro j hj
    rw [List.mem_range] at hj
    congr 1
    apply List.map_congr_left
    intro i hi
    rw [List.mem_range] at hi
    rw [h (j * vals.length + i) (by
      calc j * vals.length + i < j * vals.length + vals.length := by omega
        _ = (j + 1) * vals.length := by ring
        _ ≤ iters * vals.length := Nat.mul_le_mul_right _ hj)]
  rw [hb]

/-- Witness for C4's amended theorem: two concrete ambient streams agreeing on
the consumed draws give identical ci bounds. -/
theorem bootstrap_ci_determined_by_consumed_draws_witness :
    (∀ t, t < 1 * ([(1:ℚ), 2]).length → (fun t => t) t = (fun t => if t < 2 then t else 0) t) ∧
    _bootstrap_ci (fun t => t) [(1:ℚ), 2] 1 (1/20) =
      _bootstrap_ci (fun t => if t < 2 then t else 0) [(1:ℚ), 2] 1 (1/20) :=
  ⟨fun t ht => by
      have h2 : t < 2 := by simpa using ht
      simp [h2],
   bootstrap_ci_determined_by_consumed_draws _ _ _ _ _ (fun t ht => by
      have h2 : t < 2 := by simpa using ht
      simp [h2])⟩

/-- The numpy elementwise `dr` expression of the source equals the spec's
per-row score list, given that all the per-row vectors have the sample's
length. -/
theorem dr_vector_eq_pointwise (eps : ℚ) :
    ∀ (T : List ℤ) (Y m0 m1 p : List ℚ),
      Y.length = T.length → m0.length = T.length → m1.length = T.length → p.length = T.length →
      vAdd (vSub (vDiv (vMul (T.map Int.cast) (vSub Y m1)) (p.map (fun x => x + eps)))
                 (vDiv (vMul ((T.map Int.cast).map (fun t => 1 - t)) (vSub Y m0))
                       (p.map (fun x => 1 - x + eps))))
           (vSub m1 m0) =
      drPointwise eps T Y m0 m1 p := by
  intro T
  induction T with
  | nil =>
    intro Y m0 m1 p hY h0 h1 hp
    simp only [List.length_nil, List.length_eq_zero] at hY h0 h1 hp
    subst hY h0 h1 hp
    rfl
  | cons t ts ih =>
    intro Y m0 m1 p hY h0 h1 hp
    cases Y with
    | nil => simp at hY
    | cons y ys =>
      cases m0 with
      | nil => simp at h0
      | cons a ars =>
        cases m1 with
        | nil => simp at h1
        | cons b bs =>
          cases p with
          | nil => simp at hp
          | cons q qs =>
            simp only [List.length_cons, Nat.succ_inj] at hY h0 h1 hp
            simp only [List.map_cons, vAdd, vSub, vMul, vDiv, List.zipWith_cons_cons,
              drPointwise, drScore]
            congr 1
            have := ih ys ars bs qs hY h0 h1 hp
            simpa [vAdd, vSub, vMul, vDiv] using this

/-- A list containing both 0 and 1 has at least two distinct values
(`LogisticRegression.fit` accepts it). -/
theorem two_mem_not_dedup_lt_two {l : List ℤ} (h0 : (0:ℤ) ∈ l) (h1 : (1:ℤ) ∈ l) :
    ¬ l.dedup.length < 2 := by
  intro h
  have h0d : (0:ℤ) ∈ l.dedup := List.mem_dedup.mpr h0
  have h1d : (1:ℤ) ∈ l.dedup := List.mem_dedup.mpr h1
  match hd : l.dedup with
  | [] => rw [hd] at h0d; simp at h0d
  | [x] => rw [hd] at h0d h1d; simp at h0d h1d; omega
  | x :: y :: rest => rw [hd] at h; simp at h; omega

/-- C7: on a surviving sample of at least 30 rows with both treatment arms
non-empty, the returned `ate` is the arithmetic mean of the per-row
doubly-robust scores, each equal to
`T_i*(Y_i − μ1(x_i))/(p(x_i)+1e-6) − (1−T_i)*(Y_i − μ0(x_i))/(1−p(x_i)+1e-6)
+ (μ1(x_i) − μ0(x_i))`, where `p` is the fitted propensity and `μ0`, `μ1` the
arm-specific outcome predictions (the fitted models appear as the oracles
`logitFn` and `linFn`; `hp`/`hlin` are the library contract that a fitted
model predicts one value per input row). -/
theorem ate_is_mean_of_dr_scores
    (logitFn : List (List ℚ) → List ℤ → List ℚ)
    (linFn : List (List ℚ) → List ℚ → List (List ℚ) → List ℚ)
    (rng : ℕ → ℕ) (df : List CRow)
    (h30 : 30 ≤ (dropnaRows df).length)
    (hT0 : (0:ℤ) ∈ Tof df) (hT1 : (1:ℤ) ∈ Tof df)
    (hp : (logitFn (Xof df) (Tof df)).length = (dropnaRows df).length)
    (hlin : ∀ a b c, (linFn a b c).length = c.length) :
    resultAte (doubly_robust_ate logitFn linFn rng df) =
      some (npMean (drPointwise (1/1000000) (Tof df) (Yof df)
        (linFn (armSel (Tof df) 0 (Xof df)) (armSel (Tof df) 0 (Yof df)) (Xof df))
        (linFn (armSel (Tof df) 1 (Xof df)) (armSel (Tof df) 1 (Yof df)) (Xof df))
        (logitFn (Xof df) (Tof df)))) := by
  simp only [Xof, Tof, Yof] at *
  simp only [doubly_robust_ate]
  rw [if_neg (by omega)]
  rw [if_neg (two_mem_not_dedup_lt_two hT0 hT1)]
  have ha0 : (List.map (fun r => npToInt (r.treat.getD 0)) (dropnaRows df)).any
      (fun t => t == 0) = true := List.any_eq_true.mpr ⟨0, hT0, by simp⟩
  have ha1 : (List.map (fun r => npToInt (r.treat.getD 0)) (dropnaRows df)).any
      (fun t => t == 1) = true := List.any_eq_true.mpr ⟨1, hT1, by simp⟩
  rw [if_pos ha0, if_pos ha1]
  simp only [resultAte]
  refine congrArg some (congrArg npMean ?_)
  apply dr_vector_eq_pointwise
  · simp
  · rw [hlin]; simp
  · rw [hlin]; simp
  · rw [hp]; simp

/-- Witness for C7: a concrete 30-row sample with 15 treated and 15 control
rows satisfies every hypothesis, and its ate is the mean of the per-row
scores. -/
theorem ate_is_mean_of_dr_scores_witness :
    30 ≤ (dropnaRows rowsBalanced).length ∧
    (0:ℤ) ∈ Tof rowsBalanced ∧ (1:ℤ) ∈ Tof rowsBalanced ∧
    resultAte (doubly_robust_ate halfFit zeroLin (fun _ => 0) rowsBalanced) =
      some (npMean (drPointwise (1/1000000) (Tof rowsBalanced) (Yof rowsBalanced)
        (zeroLin (armSel (Tof rowsBalanced) 0 (Xof rowsBalanced))
          (armSel (Tof rowsBalanced) 0 (Yof rowsBalanced)) (Xof rowsBalanced))
        (zeroLin (armSel (Tof rowsBalanced) 1 (Xof rowsBalanced))
          (armSel (Tof rowsBalanced) 1 (Yof rowsBalanced)) (Xof rowsBalanced))
        (halfFit (Xof rowsBalanced) (Tof rowsBalanced)))) :=
  ⟨by with_unfolding_all decide, by with_unfolding_all decide, by with_unfolding_all decide,
   ate_is_mean_of_dr_scores halfFit zeroLin (fun _ => 0) rowsBalanced
     (by with_unfolding_all decide) (by with_unfolding_all decide) (by with_unfolding_all decide)
     (by with_unfolding_all decide)
     (fun a b c => by simp [zeroLin])⟩

/-- The number of positions where both series are observed equals the number
of paired observations. -/
theorem count_mask_eq_paired_length (l : List (Option ℚ × Option ℚ)) :
    (l.map (fun p => p.1.isSome && p.2.isSome)).count true =
    (l.filterMap (fun p => match p with
      | (some a, some b) => some (a, b)
      | _ => none)).length := by
  induction l with
  | nil => rfl
  | cons p ps ih =>
    rcases p with ⟨x, y⟩
    cases x <;> cases y <;> simp [List.count_cons, ih]

/-- `x[mask]` is the first projection of the paired observations. -/
theorem filtered_fst_eq_paired_map (l : List (Option ℚ × Option ℚ)) :
    ((l.filter (fun p => p.1.isSome && p.2.isSome)).filterMap (fun p => p.1)) =
    (l.filterMap (fun p => match p with
      | (some a, some b) => some (a, b)
      | _ => none)).map Prod.fst := by
  induction l with
  | nil => rfl
  | cons p ps ih =>
    rcases p with ⟨x, y⟩
    cases x <;> cases y <;> simp [ih]

/-- `y[mask]` is the second projection of the paired observations. -/
theorem filtered_snd_eq_paired_map (l : List (Option ℚ × Option ℚ)) :
    ((l.filter (fun p => p.1.isSome && p.2.isSome)).filterMap (fun p => p.2)) =
    (l.filterMap (fun p => match p with
      | (some a, some b) => some (a, b)
      | _ => none)).map Prod.snd := by
  induction l with
  | nil => rfl
  | cons p ps ih =>
    rcases p with ⟨x, y⟩
    cases x <;> cases y <;> simp [ih]

/-- Every entry retained by the lag loop for one hypothesis passed the
`n >= 15` gate. -/
theorem lagEntriesFor_sample_size (pe sp : List ℚ → List ℚ → ℚ × ℚ) (ds : Frame)
    (max_lag : ℕ) (rel : String × String × String) (e : LagEntry)
    (he : e ∈ lagEntriesFor pe sp ds max_lag rel) : 15 ≤ e.sample_size := by
  rcases rel with ⟨pred, outc, desc⟩
  simp only [lagEntriesFor, List.mem_filterMap] at he
  obtain ⟨lag, _, hsome⟩ := he
  rcases hcr : corr_with_p pe sp
      (colNum (shiftCol lag ((ds.get pred).getD [])))
      (colNum ((ds.get outc).getD [])) with ⟨ro, po, n⟩
  rw [hcr] at hsome
  cases ro with
  | none => simp at hsome
  | some r =>
    cases po with
    | none => simp at hsome
    | some pv =>
      simp only at hsome
      split at hsome
      · rename_i hcond
        cases hsome
        exact hcond.2.2
      · cases hsome

/-- Every entry the hypothesis loop adds beyond its accumulator passed the
`n >= 15` gate. -/
theorem lag_loop_mem (pe sp : List ℚ → List ℚ → ℚ × ℚ) (daily : Frame) (max_lag : ℕ) :
    ∀ (rels : List (String × String × String)) (acc l : List LagEntry),
      lagLoop pe sp daily max_lag rels acc = .ok l →
      ∀ e ∈ l, e ∈ acc ∨ 15 ≤ e.sample_size := by
  intro rels
  induction rels with
  | nil =>
    intro acc l h e he
    cases h
    exact .inl he
  | cons rel rels ih =>
    intro acc l h e he
    rw [lagLoop] at h
    by_cases hcol : daily.hasCol rel.1 && daily.hasCol rel.2.1
    · rw [if_pos hcol] at h
      cases hds : daily.sortValuesDate with
      | error u => rw [hds] at h; cases h
      | ok ds =>
        rw [hds] at h
        rcases ih (acc ++ lagEntriesFor pe sp ds max_lag rel) l h e he with hmem | hsz
        · rcases List.mem_append.mp hmem with h1 | h2
          · exact .inl h1
          · exact .inr (lagEntriesFor_sample_size pe sp ds max_lag rel e h2)
        · exact .inr hsz
    · rw [if_neg hcol] at h
      exact ih acc l h e he

/-- C9: `corr_with_p` returns `(None, None, 0)` — never a fabricated zero
correlation — exactly when fewer than 14 paired non-missing observations
exist; otherwise it applies the caller-selected correlation (the scipy oracle)
to exactly the paired observations and reports their count as `n`.  And every
result retained by lag mode additionally passed the `n ≥ 15` gate. -/
theorem corr_small_n_no_result_and_lag_min15 :
    (∀ (pe sp : List ℚ → List ℚ → ℚ × ℚ) (method : String) (x y : List (Option ℚ)),
      corr_with_p pe sp x y method =
        if (pairedObs x y).length < 14 then (none, none, 0)
        else
          (some ((if method = "pearson" then pe else sp)
              ((pairedObs x y).map Prod.fst) ((pairedObs x y).map Prod.snd)).1,
           some ((if method = "pearson" then pe else sp)
              ((pairedObs x y).map Prod.fst) ((pairedObs x y).map Prod.snd)).2,
           (pairedObs x y).length)) ∧
    (∀ (pe sp : List ℚ → List ℚ → ℚ × ℚ) (daily : Frame) (max_lag : ℕ) (e : LagEntry),
      e ∈ lagList pe sp daily max_lag → 15 ≤ e.sample_size) := by
  constructor
  · intro pe sp method x y
    simp only [corr_with_p, pairedObs]
    rw [count_mask_eq_paired_length (x.zip y), filtered_fst_eq_paired_map (x.zip y),
      filtered_snd_eq_paired_map (x.zip y)]
    by_cases hm : method = "pearson" <;> simp [hm]
  · intro pe sp daily max_lag e he
    unfold lagList find_lag_correlations at he
    cases hlp : lagLoop pe sp daily max_lag relationships [] with
    | error u => rw [hlp] at he; simp at he
    | ok l =>
      rw [hlp] at he
      simp only [List.mem_insertionSort] at he
      rcases lag_loop_mem pe sp daily max_lag relationships [] l hlp e he with h1 | h2
      · simp at h1
      · exact h2

/-- Witness for C9: a concrete 16-day frame yields a retained lag result, and
its `n` is at least 15. -/
theorem corr_small_n_no_result_and_lag_min15_witness :
    (lagList constOneCorr constOneCorr daily16 3).headI ∈
      lagList constOneCorr constOneCorr daily16 3 ∧
    15 ≤ (lagList constOneCorr constOneCorr daily16 3).headI.sample_size :=
  ⟨by with_unfolding_all decide,
   corr_small_n_no_result_and_lag_min15.2 constOneCorr constOneCorr daily16 3 _
     (by with_unfolding_all decide)⟩

/-- Every list `discoverCore` can return satisfies the retention gate, the
ranking order and the top-10 cut. -/
theorem discoverCore_props (pe sp : List ℚ → List ℚ → ℚ × ℚ)
    (daily meals : Frame) (minc : ℚ) :
    (∀ e ∈ discoverCore pe sp daily meals minc,
        minc ≤ |e.correlation| ∧ e.p_value < 1/20 ∧ 20 ≤ e.sample_size) ∧
    List.Sorted entryGE (discoverCore pe sp daily meals minc) ∧
    (discoverCore pe sp daily meals minc).length ≤ 10 := by
  simp only [discoverCore]
  split
  · simp
  · split
    · simp
    · refine ⟨?_, ?_, ?_⟩
      · intro e he
        have he' : e ∈ List.insertionSort entryGE ((pairsOf (all_metrics.filter
            (daily.merge (groupbyAgg meals (aggSpecOf meals))).hasCol)).filterMap (fun mm =>
          match corr_with_p pe sp
              (colNum (((daily.merge (groupbyAgg meals (aggSpecOf meals))).get mm.1).getD []))
              (colNum (((daily.merge (groupbyAgg meals (aggSpecOf meals))).get mm.2).getD [])) with
          | (some r, some p, n) =>
            if minc ≤ |r| ∧ p < 1/20 ∧ 20 ≤ n then
              some { metric1 := mm.1, metric2 := mm.2, correlation := r, p_value := p,
                     sample_size := n, is_hidden := _is_hidden_correlation mm.1 mm.2,
                     interpretation := _interpret_correlation mm.1 mm.2 r,
                     actionable := _is_actionable_correlation mm.1 mm.2 }
            else none
          | _ => none)) := (List.take_sublist _ _).mem he
        rw [List.mem_insertionSort, List.mem_filterMap] at he'
        obtain ⟨mm, _, hsome⟩ := he'
        rcases hcr : corr_with_p pe sp
            (colNum (((daily.merge (groupbyAgg meals (aggSpecOf meals))).get mm.1).getD []))
            (colNum (((daily.merge (groupbyAgg meals (aggSpecOf meals))).get mm.2).getD []))
          with ⟨ro, po, n⟩
        rw [hcr] at hsome
        cases ro with
        | none => simp at hsome
        | some r =>
          cases po with
          | none => simp at hsome
          | some pv =>
            simp only at hsome
            split at hsome
            · rename_i hcond
              cases hsome
              exact hcond
            · cases hsome
      · exact (List.sorted_insertionSort entryGE _).sublist (List.take_sublist _ _)
      · exact List.length_take_le _ _

/-- C10: every pair returned by discovery mode (default `min_correlation`)
satisfies `|r| ≥ 0.3`, `p < 0.05` and `n ≥ 20`; the returned list is sorted by
the key `(is_hidden, |r|)` descending — hidden pairs before obvious pairs,
`|r|` descending within each class (`entryGE` is that comparison); and at most
10 results are returned for any input. -/
theorem discovery_gate_sort_top10 (pe sp : List ℚ → List ℚ → ℚ × ℚ) (daily meals : Frame) :
    (∀ e ∈ discoveredList pe sp daily meals (3/10),
        3/10 ≤ |e.correlation| ∧ e.p_value < 1/20 ∧ 20 ≤ e.sample_size) ∧
    List.Sorted entryGE (discoveredList pe sp daily meals (3/10)) ∧
    (discoveredList pe sp daily meals (3/10)).length ≤ 10 := by
  unfold discoveredList discover_hidden_correlations
  cases h1 : meals.get "date" with
  | none => simp
  | some mc =>
    cases h2 : daily.get "date" with
    | none => simp
    | some dc =>
      simp only
      exact discoverCore_props pe sp _ _ (3/10)

/-- Witness for C10: a concrete 20-day input yields a non-empty discovery
list whose head passes the gate, with at most 10 results. -/
theorem discovery_gate_sort_top10_witness :
    ((discoveredList constOneCorr constOneCorr dailyEx mealsEx (3/10)).headI ∈
      discoveredList constOneCorr constOneCorr dailyEx mealsEx (3/10) ∧
     3/10 ≤ |(discoveredList constOneCorr constOneCorr dailyEx mealsEx (3/10)).headI.correlation|) ∧
    (discoveredList constOneCorr constOneCorr dailyEx mealsEx (3/10)).length ≤ 10 :=
  ⟨⟨by with_unfolding_all decide,
    ((discovery_gate_sort_top10 constOneCorr constOneCorr dailyEx mealsEx).1 _
      (by with_unfolding_all decide)).1⟩,
   (discovery_gate_sort_top10 constOneCorr constOneCorr dailyEx mealsEx).2.2⟩

/-- Invariant of the flag-scanning loop of `anomaly_runs`: processing the
suffix of the flag vector starting at position `i`, with `start` the opening
index of the currently open run and `acc` the runs already closed (maximal,
long enough, disjoint and in order, all ending before the open region), every
run the loop returns is maximal of length ≥ `m`, and the returned list is
disjoint and in chronological order. -/
theorem scanRuns_spec (F : List Bool) (m : ℕ) :
    ∀ (rest : List Bool) (i : ℕ) (start : Option ℕ) (acc : List (ℕ × ℕ)),
      rest = F.drop i → i ≤ F.length →
      (∀ p ∈ acc, BoolRun F m p.1 p.2) →
      List.Pairwise (fun p q => p.2 < q.1) acc →
      (∀ s, start = some s → s < i ∧ (∀ j, s ≤ j → j < i → F.getD j false = true) ∧
            (s = 0 ∨ F.getD (s - 1) false = false) ∧ ∀ p ∈ acc, p.2 < s) →
      (start = none → ((i = 0 ∨ F.getD (i - 1) false = false) ∧ ∀ p ∈ acc, p.2 < i)) →
      (∀ p ∈ scanRuns m F.length i start acc rest, BoolRun F m p.1 p.2) ∧
      List.Pairwise (fun p q => p.2 < q.1) (scanRuns m F.length i start acc rest) := by
  intro rest
  induction rest with
  | nil =>
    intro i start acc hdrop hile hacc hpw hsome hnone
    have hieq : i = F.length := by
      have := List.drop_eq_nil_iff.mp hdrop.symm
      omega
    cases start with
    | none => exact ⟨hacc, hpw⟩
    | some s =>
      obtain ⟨hsi, hflag, hlmax, hend⟩ := hsome s rfl
      simp only [scanRuns]
      split
      · rename_i hguard
        constructor
        · intro p hp
          rcases List.mem_append.mp hp with hin | hnew
          · exact hacc p hin
          · have hpeq : p = (s, F.length - 1) := by simpa using hnew
            subst hpeq
            refine ⟨by omega, by omega, by omega, ?_, hlmax, Or.inl rfl⟩
            intro j hsj hje
            exact hflag j hsj (by omega)
        · refine List.pairwise_append.mpr ⟨hpw, List.pairwise_singleton _ _, ?_⟩
          intro p hp q hq
          have hqeq : q = (s, F.length - 1) := by simpa using hq
          subst hqeq
          exact hend p hp
      · exact ⟨hacc, hpw⟩
  | cons v rest' ih =>
    intro i start acc hdrop hile hacc hpw hsome hnone
    have hget : F[i]? = some v := by
      have h0 : (F.drop i)[0]? = some v := by rw [← hdrop]; simp
      rwa [List.getElem?_drop, Nat.add_zero] at h0
    have hilt : i < F.length := by
      have := List.getElem?_eq_some.mp hget
      exact this.1
    have hFi : F.getD i false = v := by
      rw [List.getD_eq_getElem?_getD, hget]
      rfl
    have hrest' : rest' = F.drop (i + 1) := by
      have : (F.drop i).tail = F.drop (i + 1) := by
        rw [List.tail_drop]
      rw [← this, ← hdrop]
      rfl
    simp only [scanRuns]
    cases v with
    | true =>
      simp only [if_true]
      cases start with
      | none =>
        obtain ⟨hedge, haccend⟩ := hnone rfl
        apply ih (i + 1) (some ((none : Option ℕ).getD i)) acc hrest' (by omega) hacc hpw
        · intro s hs
          simp only [Option.getD_none] at hs
          cases hs
          refine ⟨by omega, ?_, ?_, ?_⟩
          · intro j h1 h2
            have : j = i := by omega
            subst this
            exact hFi
          · exact hedge
          · exact haccend
        · intro h
          cases h
      | some s =>
        obtain ⟨hsi, hflag, hlmax, hend⟩ := hsome s rfl
        apply ih (i + 1) (some ((some s).getD i)) acc hrest' (by omega) hacc hpw
        · intro s' hs'
          simp only [Option.getD_some] at hs'
          cases hs'
          refine ⟨by omega, ?_, hlmax, hend⟩
          intro j h1 h2
          by_cases hj : j < i
          · exact hflag j h1 hj
          · have : j = i := by omega
            subst this
            exact hFi
        · intro h
          cases h
    | false =>
      simp only [if_false, Bool.false_eq_true]
      cases start with
      | none =>
        obtain ⟨hedge, haccend⟩ := hnone rfl
        apply ih (i + 1) none acc hrest' (by omega) hacc hpw
        · intro s hs
          cases hs
        · intro _
          refine ⟨Or.inr ?_, ?_⟩
          · simpa using hFi
          · intro p hp
            have := haccend p hp
            omega
      | some s =>
        obtain ⟨hsi, hflag, hlmax, hend⟩ := hsome s rfl
        have hrun : m ≤ i - s → BoolRun F m s (i - 1) := by
          intro hguard
          refine ⟨by omega, by omega, by omega, ?_, hlmax, Or.inr ?_⟩
          · intro j h1 h2
            exact hflag j h1 (by omega)
          · have heq : i - 1 + 1 = i := by omega
            rw [heq]
            simpa using hFi
        dsimp only
        by_cases hguard : m ≤ i - s
        · rw [if_pos hguard]
          apply ih (i + 1) none (acc ++ [(s, i - 1)]) hrest' (by omega)
          · intro p hp
            rcases List.mem_append.mp hp with hin | hnew
            · exact hacc p hin
            · have hpeq : p = (s, i - 1) := by simpa using hnew
              subst hpeq
              exact hrun hguard
          · refine List.pairwise_append.mpr ⟨hpw, List.pairwise_singleton _ _, ?_⟩
            intro p hp q hq
            have hqeq : q = (s, i - 1) := by simpa using hq
            subst hqeq
            exact hend p hp
          · intro s' hs'
            cases hs'
          · intro _
            refine ⟨Or.inr (by simpa using hFi), ?_⟩
            intro p hp
            rcases List.mem_append.mp hp with hin | hnew
            · have := hend p hin
              omega
            · have hpeq : p = (s, i - 1) := by simpa using hnew
              subst hpeq
              simp
              omega
        · rw [if_neg hguard]
          apply ih (i + 1) none acc hrest' (by omega) hacc hpw
          · intro s' hs'
            cases hs'
          · intro _
            refine ⟨Or.inr (by simpa using hFi), ?_⟩
            intro p hp
            have := hend p hp
            omega

/-- The flag vector is as long as the series. -/
theorem flagsOf_length (series : List (Option ℚ)) (k : ℚ) :
    (flagsOf series k).length = series.length := by
  simp [flagsOf]

/-- Past the end of the series no point is flagged. -/
theorem flagAt_oob (series : List (Option ℚ)) (k : ℚ) (i : ℕ) (h : series.length ≤ i) :
    flagAt series k i = false := by
  have hnone : series.getD i none = none := by
    rw [List.getD_eq_getElem?_getD, List.getElem?_eq_none h]
    rfl
  unfold flagAt zScore
  rw [hnone]

/-- Reading the flag vector with an out-of-range default agrees with the
pointwise flag everywhere. -/
theorem flagsOf_getD_eq (series : List (Option ℚ)) (k : ℚ) (i : ℕ) :
    (flagsOf series k).getD i false = flagAt series k i := by
  by_cases h : i < series.length
  · unfold flagsOf
    rw [List.getD_eq_getElem?_getD, List.getElem?_map, List.getElem?_range h]
    rfl
  · rw [List.getD_eq_getElem?_getD, List.getElem?_eq_none (by rw [flagsOf_length]; omega),
      flagAt_oob series k i (by omega)]
    rfl

/-- With dates at least one day apart, the date span of an index range is at
least its index span. -/
theorem date_gap_lower (dates : List ℚ)
    (hinc : ∀ i, i + 1 < dates.length → dates.getD i 0 + 1 ≤ dates.getD (i + 1) 0) :
    ∀ d s, s + d < dates.length → (d : ℚ) ≤ dates.getD (s + d) 0 - dates.getD s 0 := by
  intro d
  induction d with
  | zero => intro s h; simp
  | succ d ih =>
    intro s h
    have h1 := ih s (by omega)
    have h2 := hinc (s + d) (by omega)
    have h3 : s + (d + 1) = (s + d) + 1 := by omega
    rw [h3]
    push_cast
    linarith

/-- C8: over a date-aligned series (dates strictly increasing, at least one
day apart), every run returned by `anomaly_runs` covers a maximal contiguous
span of indices whose robust z-score exceeds `k` (an adjacent flagged index is
always included), has at least `min_run` points — so
`end_date − start_date + 1 ≥ min_run` — with a run still open at the series
end closed at the last index (`MaxRun` admits `e = length − 1`); the runs are
pairwise disjoint and chronological; and each record reports the dates at the
run's endpoints, the mean of the series over the run, and the rolling median
at the run's last index (`mkRun`). -/
theorem anomaly_runs_spec (dates : List ℚ) (series : List (Option ℚ)) (k : ℚ) (min_run : ℕ)
    (hlen : dates.length = series.length)
    (hinc : ∀ i, i + 1 < dates.length → dates.getD i 0 + 1 ≤ dates.getD (i + 1) 0) :
    ∃ idx : List (ℕ × ℕ),
      anomaly_runs dates series k min_run = idx.map (mkRun dates series) ∧
      (∀ p ∈ idx, MaxRun series k min_run p.1 p.2) ∧
      (∀ p ∈ idx, (min_run : ℚ) ≤ dates.getD p.2 0 - dates.getD p.1 0 + 1) ∧
      List.Pairwise (fun p q => p.2 < q.1) idx := by
  have hF : (flagsOf series k).length = series.length := flagsOf_length series k
  have hmain := scanRuns_spec (flagsOf series k) min_run (flagsOf series k) 0 none []
    rfl (by omega) (by simp) (by simp)
    (fun s hs => by cases hs)
    (fun _ => ⟨Or.inl rfl, by simp⟩)
  rw [hF] at hmain
  obtain ⟨hruns, hpw⟩ := hmain
  refine ⟨scanRuns min_run series.length 0 none [] (flagsOf series k), rfl, ?_, ?_, hpw⟩
  · intro p hp
    obtain ⟨h1, h2, h3, h4, h5, h6⟩ := hruns p hp
    rw [hF] at h2 h6
    refine ⟨h1, h2, h3, ?_, ?_, ?_⟩
    · intro i hi1 hi2
      rw [← flagsOf_getD_eq]
      exact h4 i hi1 hi2
    · rcases h5 with h | h
      · exact Or.inl h
      · exact Or.inr (by rw [← flagsOf_getD_eq]; exact h)
    · rcases h6 with h | h
      · exact Or.inl h
      · exact Or.inr (by rw [← flagsOf_getD_eq]; exact h)
  · intro p hp
    obtain ⟨h1, h2, h3, _, _, _⟩ := hruns p hp
    rw [hF] at h2
    have hd := date_gap_lower dates hinc (p.2 - p.1) p.1 (by omega)
    have hse : p.1 + (p.2 - p.1) = p.2 := by omega
    rw [hse] at hd
    have hm : (min_run : ℚ) ≤ ((p.2 - p.1 : ℕ) : ℚ) + 1 := by
      have hh : min_run ≤ (p.2 - p.1) + 1 := by omega
      exact_mod_cast hh
    linarith

/-- Witness for C8: thirteen consecutive daily points with a three-day level
shift at the end satisfy the hypotheses (the run is closed at the last
index). -/
theorem anomaly_runs_spec_witness :
    dates13.length = series13.length ∧
    (∃ idx : List (ℕ × ℕ),
      anomaly_runs dates13 series13 (5/2) 3 = idx.map (mkRun dates13 series13) ∧
      (∀ p ∈ idx, MaxRun series13 (5/2) 3 p.1 p.2) ∧
      (∀ p ∈ idx, ((3:ℕ) : ℚ) ≤ dates13.getD p.2 0 - dates13.getD p.1 0 + 1) ∧
      List.Pairwise (fun p q => p.2 < q.1) idx) :=
  ⟨by decide,
   anomaly_runs_spec dates13 series13 (5/2) 3 (by decide)
     (by
       intro i hi
       have hl : dates13.length = 13 := by decide
       rw [hl] at hi
       have hub : i < 12 := by omega
       interval_cases i <;> with_unfolding_all decide)⟩
